import Mathlib

/-!
# A shallow embedding of the Mozart++ thread-aware event dispatcher

This file embeds the event dispatcher of `src/tests/test-looper.cpp`
(classes `handler_container` and `handler`) and proves the specified
properties about it.

Modelling conventions:
* `std::type_index` of a decayed argument-type list is modelled as the
  list of (opaque, comparable) type identities itself: two `typeid`s
  compare equal exactly when the type lists are equal.
* `std::thread::id` is an opaque comparable token (`Nat`).
* The wrapped callable behind the type-erased `std::shared_ptr<char>`
  handle is an opaque identity (`Nat`); invoking it is recorded as an
  event `(callable, argument values)` rather than executed.
* The `std::unordered_map` registry is an association list with unique
  keys; `std::queue` is a list with its front at the head.
* `emit` returns, besides the successor state, the list of routing
  actions it performed in program order (synchronous in-line invocation
  vs. push of a pending call) and a success flag; throwing
  `mpp::runtime_error` is modelled as the flag being `false`.
* The busy-wait in `loop` is modelled by its exit condition; one
  iteration of the outer `while` of `loop` is a step function, and a
  whole quiescent run of `loop` (no concurrent pushes and no concurrent
  `quit` while it runs) is a recursive function that returns `none` when
  the busy-wait would spin forever.
-/

/-- Identity of a decayed C++ type (opaque, comparable). -/
abbrev Ty := Nat

/-- `std::thread::id`: an opaque comparable thread token. -/
abbrev ThreadId := Nat

/-- Identity of a wrapped callable object (the target of the
type-erased `std::shared_ptr<char>` handle). -/
abbrev CallableId := Nat

/-- A runtime argument value. -/
abbrev Value := Nat

/-- One call argument: its decayed static type together with its value. -/
abbrev Arg := Ty × Value

/-- `handler_container`: stores the argument count, the `std::type_index`
of the decayed argument-type list (modelled as that list itself) and the
type-erased handle to the wrapped callable. -/
structure handler_container where
  args_count : Nat
  args_info : List Ty
  fn : CallableId
deriving DecidableEq, Repr

/-- The `handler_container` constructor: for a callable with decayed
argument types `argTypes`, it stores `_args_count = size(arg_types)`
and `_args_info = typeid(arg_types)`. -/
def handler_container.make (argTypes : List Ty) (fn : CallableId) : handler_container :=
  { args_count := argTypes.length, args_info := argTypes, fn := fn }

/-- `handler_container::callable_ptr<F>`: if the callee's argument-type
list is empty only `_args_count == 0` is checked; otherwise
`_args_info == typeid(callee_arg_types)` is checked; on mismatch it
returns `nullptr` (here `none`). -/
def handler_container.callable_ptr (c : handler_container)
    (callee_arg_types : List Ty) : Option CallableId :=
  if callee_arg_types.isEmpty then
    if c.args_count = 0 then some c.fn else none
  else
    if c.args_info = callee_arg_types then some c.fn else none

/-- One entry of the per-event vector: the registering thread's id
paired with the handler container. -/
abbrev Slot := ThreadId × handler_container

/-- A fully bound pending call (`remote_fn_t` closure): the matched
callable together with the copied emitted arguments. Invocations are
recorded with the same data. -/
structure PendingCall where
  fn : CallableId
  args : List Arg
deriving DecidableEq, Repr

/-- Dispatcher state (`class handler`): the quit flag, the pending
remote-call queue (front at the head) and the event registry. The two
mutexes and the run-loop exclusivity lock have no state-level content in
this sequentialised model beyond the single-popper discipline they
enforce. -/
structure handler where
  _quited : Bool
  _pending_remote_calls : List PendingCall
  _events : List (String × List Slot)
deriving DecidableEq, Repr

/-- `_events.find(name)` on the association-list registry. -/
def findEvent : List (String × List Slot) → String → Option (List Slot)
  | [], _ => none
  | (k, v) :: rest, name => if k = name then some v else findEvent rest name

/-- `_events[name].push_back(slot)`: append to the vector for `name`,
default-constructing an empty vector first when `name` is absent. -/
def insertEvent : List (String × List Slot) → String → Slot → List (String × List Slot)
  | [], name, s => [(name, [s])]
  | (k, v) :: rest, name, s =>
    if k = name then (k, v ++ [s]) :: rest
    else (k, v) :: insertEvent rest name s

/-- `_events.erase(name)`: remove the entry for `name`. On the
association-list representation every pair with that key is removed,
which coincides with erasing the unique entry on the unique-key lists an
`unordered_map` holds. -/
def eraseEvent : List (String × List Slot) → String → List (String × List Slot)
  | [], _ => []
  | (k, v) :: rest, name =>
    if k = name then eraseEvent rest name
    else (k, v) :: eraseEvent rest name

/-- `handler::on(name, handler)`: append a slot holding the calling
thread's id and a freshly constructed container. -/
def handler.on (h : handler) (tid : ThreadId) (name : String)
    (argTypes : List Ty) (fn : CallableId) : handler :=
  { h with _events := insertEvent h._events name (tid, handler_container.make argTypes fn) }

/-- `handler::unregister_event(name)`. -/
def handler.unregister_event (h : handler) (name : String) : handler :=
  { h with _events := eraseEvent h._events name }

/-- `handler::quit()`: set the quit flag, touch nothing else. -/
def handler.quit (h : handler) : handler :=
  { h with _quited := true }

/-- `handler::push_remote_call`: push at the back of the queue. -/
def handler.push_remote_call (h : handler) (c : PendingCall) : handler :=
  { h with _pending_remote_calls := h._pending_remote_calls ++ [c] }

/-- Result of `handler::pop_remote_call`: `front()`/`pop()` on an empty
queue is the *EmptyQueuePop* fault; otherwise the front element is
removed and returned. -/
inductive PopResult where
  | emptyQueuePop
  | ok (c : PendingCall) (h : handler)
deriving DecidableEq, Repr

/-- `handler::pop_remote_call`. -/
def handler.pop_remote_call (h : handler) : PopResult :=
  match h._pending_remote_calls with
  | [] => PopResult.emptyQueuePop
  | c :: rest => PopResult.ok c { h with _pending_remote_calls := rest }

/-- One routing action performed by `emit` for a matched slot, in
program order: a synchronous in-line invocation, or a push of a bound
pending call onto the shared queue. -/
inductive EmitAction where
  | sync (c : PendingCall)
  | deferred (c : PendingCall)
deriving DecidableEq, Repr

/-- The pending calls among a list of emit actions that were pushed onto
the queue, in push order. -/
def deferredCalls : List EmitAction → List PendingCall
  | [] => []
  | EmitAction.sync _ :: rest => deferredCalls rest
  | EmitAction.deferred c :: rest => c :: deferredCalls rest

/-- The calls among a list of emit actions that were invoked
synchronously in-line, in invocation order. -/
def syncCalls : List EmitAction → List PendingCall
  | [] => []
  | EmitAction.sync c :: rest => c :: syncCalls rest
  | EmitAction.deferred _ :: rest => syncCalls rest

/-- The slot loop of `handler::emit`: for each slot in vector order,
call `callable_ptr<void(Args...)>`; on `nullptr` throw (the returned
flag is `false` and no later slot is processed); otherwise invoke
in-line when the owner is the calling thread, else bind the callable
and a copy of the arguments into a pending call. -/
def emitSlots (tid : ThreadId) (args : List Arg) :
    List Slot → List EmitAction × Bool
  | [] => ([], true)
  | (owner, c) :: rest =>
    match c.callable_ptr (args.map Prod.fst) with
    | none => ([], false)
    | some fn =>
      let r := emitSlots tid args rest
      if owner = tid then (EmitAction.sync ⟨fn, args⟩ :: r.1, r.2)
      else (EmitAction.deferred ⟨fn, args⟩ :: r.1, r.2)

/-- `handler::emit(name, args...)`: look up `name` (absent: no-op),
then run the slot loop; every pending call pushed before a mismatch
stays on the queue. Returns the successor state, the actions in program
order, and `false` when `mpp::runtime_error` was thrown. -/
def handler.emit (h : handler) (tid : ThreadId) (name : String)
    (args : List Arg) : handler × List EmitAction × Bool :=
  match findEvent h._events name with
  | none => (h, [], true)
  | some slots =>
    let r := emitSlots tid args slots
    ({ h with _pending_remote_calls := h._pending_remote_calls ++ deferredCalls r.1 },
     r.1, r.2)

/-- Exit condition of the busy-wait
`while (_pending_remote_calls.empty() && !_quited) yield();`. -/
def waitExited (h : handler) : Bool :=
  !h._pending_remote_calls.isEmpty || h._quited

/-- Result of one iteration of the outer `while (true)` of
`handler::loop`, taken at the `if (_quited)` check after the busy-wait
has exited. -/
inductive IterResult where
  | ret (h : handler)
  | invoked (c : PendingCall) (h : handler)
  | popFault
deriving DecidableEq, Repr

/-- One iteration of `handler::loop`: if the quit flag is set, `break`
out (the loop returns with the state untouched); otherwise pop the
front pending call and invoke it. -/
def handler.loopIter (h : handler) : IterResult :=
  if h._quited then IterResult.ret h
  else
    match h.pop_remote_call with
    | PopResult.emptyQueuePop => IterResult.popFault
    | PopResult.ok c h' => IterResult.invoked c h'

/-- A quiescent run of the iterations of `loop` over the pending queue,
with the quit flag `q` frozen (no concurrent `quit` or push): each
iteration re-checks the flag, then pops and invokes the front element;
with the flag set it returns at once, leaving the queue as it stands;
with the flag clear and the queue empty the busy-wait spins forever
(`none`). Returns (invoked calls in order, remaining queue). -/
def loopRunPending (q : Bool) : List PendingCall →
    Option (List PendingCall × List PendingCall)
  | [] => if q then some ([], []) else none
  | c :: rest =>
    if q then some ([], c :: rest)
    else
      match loopRunPending q rest with
      | none => none
      | some (inv, rem) => some (c :: inv, rem)

/-- A whole quiescent execution of `handler::loop`: `none` when the
busy-wait never terminates, otherwise the state at return together with
the calls invoked. -/
def handler.loopRun (h : handler) : Option (handler × List PendingCall) :=
  match loopRunPending h._quited h._pending_remote_calls with
  | none => none
  | some (inv, rem) => some ({ h with _pending_remote_calls := rem }, inv)

/-- The calls invoked by the first `fuel` iterations of `loop`
(interleaved executions may set the quit flag between iterations; here
the state evolves only by `loopIter`), with the state reached. -/
def handler.loopInvokes : Nat → handler → List PendingCall × handler
  | 0, h => ([], h)
  | n + 1, h =>
    match h.loopIter with
    | IterResult.invoked c h' =>
      let r := handler.loopInvokes n h'
      (c :: r.1, r.2)
    | _ => ([], h)

/-! ## Helper lemmas (shared across claims) -/

/-- Whenever `callable_ptr` succeeds, the invocable it returns is the
stored wrapped callable. -/
theorem handler_container.callable_ptr_fn {c : handler_container}
    {τ : List Ty} {fn : CallableId} (h : c.callable_ptr τ = some fn) :
    fn = c.fn := by
  unfold handler_container.callable_ptr at h
  split at h <;> split at h <;> simp_all

/-- Erasing an event makes its lookup fail. -/
theorem findEvent_eraseEvent (m : List (String × List Slot)) (name : String) :
    findEvent (eraseEvent m name) name = none := by
  induction m with
  | nil => rfl
  | cons kv rest ih =>
    obtain ⟨k, v⟩ := kv
    by_cases hk : k = name <;> simp [eraseEvent, hk, findEvent, ih]

/-- After an insertion for `name`, looking up `name` yields the old
vector (empty when absent) with the new slot appended. -/
theorem findEvent_insertEvent_self (m : List (String × List Slot))
    (name : String) (s : Slot) :
    findEvent (insertEvent m name s) name =
      some ((findEvent m name).getD [] ++ [s]) := by
  induction m with
  | nil => simp [insertEvent, findEvent]
  | cons kv rest ih =>
    obtain ⟨k, v⟩ := kv
    by_cases hk : k = name <;> simp [insertEvent, findEvent, hk, ih]

/-- An insertion for `name` leaves the lookup of any other key alone. -/
theorem findEvent_insertEvent_ne (m : List (String × List Slot))
    (name name' : String) (s : Slot) (h : name' ≠ name) :
    findEvent (insertEvent m name s) name' = findEvent m name' := by
  have h' : ¬ name = name' := fun e => h (Eq.symm e)
  induction m with
  | nil => simp [insertEvent, findEvent, h']
  | cons kv rest ih =>
    obtain ⟨k, v⟩ := kv
    by_cases hk : k = name
    · subst hk
      simp [insertEvent, findEvent, h']
    · simp [insertEvent, findEvent, hk, ih]

/-- When every slot matches, the slot loop succeeds and routes each slot
in vector order: a synchronous in-line invocation when its owner is the
calling thread, a deferred push otherwise, each binding the stored
callable and the emitted arguments. -/
theorem emitSlots_all_match (tid : ThreadId) (args : List Arg)
    (slots : List Slot)
    (hall : ∀ s ∈ slots, ((s.2).callable_ptr (args.map Prod.fst)).isSome) :
    emitSlots tid args slots =
      (slots.map fun s =>
        if s.1 = tid then EmitAction.sync ⟨s.2.fn, args⟩
        else EmitAction.deferred ⟨s.2.fn, args⟩, true) := by
  induction slots with
  | nil => rfl
  | cons s rest ih =>
    obtain ⟨owner, c⟩ := s
    have hs : ((c.callable_ptr (args.map Prod.fst))).isSome :=
      hall _ (List.mem_cons_self _ _)
    obtain ⟨fn, hfn⟩ := Option.isSome_iff_exists.mp hs
    have hfn' : fn = c.fn := handler_container.callable_ptr_fn hfn
    subst hfn'
    have hrest := ih (fun s hs' => hall _ (List.mem_cons_of_mem _ hs'))
    by_cases howner : owner = tid <;>
      simp [emitSlots, hfn, hrest, howner]

/-- When every slot before `bad` matches and `bad` does not, the slot
loop performs exactly the actions of the matching slots before `bad`,
then fails; neither `bad` nor any later slot contributes an action. -/
theorem emitSlots_append_fail (tid : ThreadId) (args : List Arg)
    (pre : List Slot) (bad : Slot) (post : List Slot)
    (hpre : ∀ s ∈ pre, ((s.2).callable_ptr (args.map Prod.fst)).isSome)
    (hbad : (bad.2).callable_ptr (args.map Prod.fst) = none) :
    emitSlots tid args (pre ++ bad :: post) =
      ((emitSlots tid args pre).1, false) := by
  induction pre with
  | nil =>
    obtain ⟨owner, c⟩ := bad
    simp [emitSlots, hbad]
  | cons s rest ih =>
    obtain ⟨owner, c⟩ := s
    have hs : ((c.callable_ptr (args.map Prod.fst))).isSome :=
      hpre _ (List.mem_cons_self _ _)
    obtain ⟨fn, hfn⟩ := Option.isSome_iff_exists.mp hs
    have hrest := ih (fun s hs' => hpre _ (List.mem_cons_of_mem _ hs'))
    by_cases howner : owner = tid <;>
      simp [emitSlots, hfn, hrest, howner]

/-- With the quit flag clear, as many loop iterations as there are
queued calls pop and invoke exactly those calls, front first, leaving
the queue empty. -/
theorem loopInvokes_all (pending : List PendingCall)
    (ev : List (String × List Slot)) :
    handler.loopInvokes pending.length ⟨false, pending, ev⟩ =
      (pending, ⟨false, [], ev⟩) := by
  induction pending with
  | nil => rfl
  | cons c rest ih =>
    simp [handler.loopInvokes, handler.loopIter, handler.pop_remote_call, ih]

/-- A loop iteration that pops and invokes a call leaves the quit flag
as it was. -/
theorem loopIter_invoked_quited {h h' : handler} {c : PendingCall}
    (hit : h.loopIter = IterResult.invoked c h') :
    h'._quited = h._quited := by
  unfold handler.loopIter handler.pop_remote_call at hit
  by_cases hq : h._quited
  · simp [hq] at hit
  · simp only [hq, if_false, Bool.false_eq_true, if_neg] at hit
    cases hp : h._pending_remote_calls with
    | nil => simp [hp] at hit
    | cons a rest =>
      simp [hp] at hit
      obtain ⟨-, he⟩ := hit
      rw [← he]
      simp [Bool.not_eq_true] at hq
      simp [hq]

/-- Any number of loop iterations leaves the quit flag unchanged. -/
theorem loopInvokes_quited (n : Nat) (h : handler) :
    ((handler.loopInvokes n h).2)._quited = h._quited := by
  induction n generalizing h with
  | zero => rfl
  | succ n ih =>
    cases hit : h.loopIter with
    | ret h' => simp [handler.loopInvokes, hit]
    | popFault => simp [handler.loopInvokes, hit]
    | invoked c h' =>
      simp only [handler.loopInvokes, hit]
      rw [ih h', loopIter_invoked_quited hit]

/-! ## The claims -/

/-- C2: the attempt-as operation `callable_ptr` returns a usable
invocable — always the stored wrapped callable — exactly when either the
target signature has zero parameters and the stored argument count is 0
(the stored signature tag is not consulted in this case), or the target
signature is non-empty and the stored signature tag equals it exactly;
in every other case it returns `none` (`nullptr`). -/
theorem callable_ptr_match_iff (c : handler_container) (τ : List Ty)
    (fn : CallableId) :
    c.callable_ptr τ = some fn ↔
      fn = c.fn ∧
        ((τ = [] ∧ c.args_count = 0) ∨ (τ ≠ [] ∧ c.args_info = τ)) := by
  unfold handler_container.callable_ptr
  cases τ with
  | nil => by_cases h0 : c.args_count = 0 <;> simp [h0, eq_comm]
  | cons t ts => by_cases hi : c.args_info = t :: ts <;> simp [hi, eq_comm]

/-- C5: emitting a name with no registry entry — never registered, or
removed whole by `unregister_event` — returns normally with no handler
invoked, no error, and the registry and queue untouched; after
`unregister_event name`, `emit name` behaves exactly like an unknown
event. -/
theorem emit_unknown_event_noop (h : handler) (tid : ThreadId)
    (name : String) (args : List Arg) :
    (findEvent h._events name = none → h.emit tid name args = (h, [], true)) ∧
    (h.unregister_event name).emit tid name args =
      (h.unregister_event name, [], true) := by
  constructor
  · intro hfind
    simp [handler.emit, hfind]
  · simp [handler.emit, handler.unregister_event, findEvent_eraseEvent]

/-- Witness for C5: a concrete dispatcher with an empty registry, and
one whose only event has just been unregistered. -/
theorem emit_unknown_event_noop_witness :
    handler.emit ⟨false, [], []⟩ 0 "ping" [] = (⟨false, [], []⟩, [], true) ∧
    (handler.unregister_event
        ⟨false, [], [("ping", [(0, handler_container.make [] 3)])]⟩
        "ping").emit 0 "ping" [] =
      (handler.unregister_event
        ⟨false, [], [("ping", [(0, handler_container.make [] 3)])]⟩
        "ping", [], true) :=
  ⟨(emit_unknown_event_noop ⟨false, [], []⟩ 0 "ping" []).1 rfl,
   (emit_unknown_event_noop
      ⟨false, [], [("ping", [(0, handler_container.make [] 3)])]⟩
      0 "ping" []).2⟩

/-- C8: `quit` sets the quit flag and changes nothing else — the
registry and the pending queue are exactly as before; `quit` is
idempotent; and no dispatcher operation (registration, unregistration,
emission, a queue push, or any number of loop iterations) ever changes
the quit flag back. -/
theorem quit_sets_flag_only (h : handler) (tid : ThreadId) (name : String)
    (argTypes : List Ty) (fn : CallableId) (args : List Arg)
    (c : PendingCall) (n : Nat) :
    (h.quit)._events = h._events ∧
    (h.quit)._pending_remote_calls = h._pending_remote_calls ∧
    (h.quit)._quited = true ∧
    h.quit.quit = h.quit ∧
    (h.on tid name argTypes fn)._quited = h._quited ∧
    (h.unregister_event name)._quited = h._quited ∧
    ((h.emit tid name args).1)._quited = h._quited ∧
    (h.push_remote_call c)._quited = h._quited ∧
    ((handler.loopInvokes n h).2)._quited = h._quited := by
  refine ⟨rfl, rfl, rfl, rfl, rfl, rfl, ?_, rfl, loopInvokes_quited n h⟩
  cases hfind : findEvent h._events name <;> simp [handler.emit, hfind]

/-- C9: `on`, `unregister_event` and `emit` never read the quit flag:
running any of them after `quit` gives exactly the state of running it
first and then quitting, with identical actions and outcome — in
particular an emit after `quit` still pushes cross-thread pending calls
onto the queue exactly as before. -/
theorem ops_ignore_quit_flag (h : handler) (tid : ThreadId) (name : String)
    (argTypes : List Ty) (fn : CallableId) (args : List Arg) :
    (h.quit).on tid name argTypes fn = (h.on tid name argTypes fn).quit ∧
    (h.quit).unregister_event name = (h.unregister_event name).quit ∧
    ((h.quit).emit tid name args).1 = ((h.emit tid name args).1).quit ∧
    ((h.quit).emit tid name args).2 = (h.emit tid name args).2 := by
  refine ⟨rfl, rfl, ?_, ?_⟩ <;>
    cases hfind : findEvent h._events name <;>
      simp [handler.emit, handler.quit, hfind]

/-- C7: whenever the busy-wait of `loop` exits with the quit flag still
clear, the pending queue holds at least one element (the run-loop
exclusivity lock makes `loop` the only popper), so the iteration's
`front()`/`pop()` pair never runs on an empty queue and the
*EmptyQueuePop* fault is unreachable. -/
theorem wait_exit_pop_safe (h : handler) (hw : waitExited h = true) :
    (h._quited = false → h._pending_remote_calls ≠ []) ∧
    h.loopIter ≠ IterResult.popFault := by
  obtain ⟨q, p, ev⟩ := h
  cases q
  · simp only [waitExited, Bool.or_false, Bool.not_eq_true'] at hw
    cases p with
    | nil => simp at hw
    | cons c rest =>
      refine ⟨fun _ => by simp, ?_⟩
      simp [handler.loopIter, handler.pop_remote_call]
  · refine ⟨fun hq => by simp at hq, ?_⟩
    simp [handler.loopIter]

/-- Witness for C7: the wait has exited with one queued call and the
quit flag clear. -/
theorem wait_exit_pop_safe_witness :
    ((⟨false, [⟨0, []⟩], []⟩ : handler)._quited = false →
      (⟨false, [⟨0, []⟩], []⟩ : handler)._pending_remote_calls ≠ []) ∧
    (⟨false, [⟨0, []⟩], []⟩ : handler).loopIter ≠ IterResult.popFault :=
  wait_exit_pop_safe ⟨false, [⟨0, []⟩], []⟩ rfl

/-- C1 is false on the code: with the quit flag observed and a call
still queued, `loop` returns at once — the pending call is left on the
queue and is never invoked before `loop` returns. -/
theorem loop_quit_nonempty_returns :
    handler.loopRun ⟨true, [⟨0, []⟩], []⟩ =
      some (⟨true, [⟨0, []⟩], []⟩, []) ∧
    (⟨true, [⟨0, []⟩], []⟩ : handler)._pending_remote_calls ≠ [] := by
  exact ⟨rfl, by simp⟩

/-- C1 (amended): `loop` returns as soon as the quit flag is observed at
the top-of-iteration check, whether or not the queue is empty — calls
still queued then stay on the queue uninvoked; only when the flag is
clear does an iteration pop exactly one pending call (the front, FIFO)
and invoke it synchronously before re-checking. -/
theorem loop_returns_on_quit (h : handler) :
    (h._quited = true → h.loopRun = some (h, [])) ∧
    (∀ c rest, h._quited = false → h._pending_remote_calls = c :: rest →
      h.loopIter = IterResult.invoked c { h with _pending_remote_calls := rest }) := by
  obtain ⟨q, p, ev⟩ := h
  constructor
  · rintro rfl
    cases p <;> simp [handler.loopRun, loopRunPending]
  · rintro c rest hq hp
    simp only at hq hp
    subst hq
    subst hp
    simp [handler.loopIter, handler.pop_remote_call]

/-- Witness for the amended C1: a quit dispatcher with a queued call
returns immediately, and an unquit one pops its front call. -/
theorem loop_returns_on_quit_witness :
    handler.loopRun ⟨true, [⟨1, []⟩], []⟩ =
      some (⟨true, [⟨1, []⟩], []⟩, []) ∧
    handler.loopIter ⟨false, [⟨2, []⟩], []⟩ =
      IterResult.invoked ⟨2, []⟩ ⟨false, [], []⟩ :=
  ⟨(loop_returns_on_quit ⟨true, [⟨1, []⟩], []⟩).1 rfl,
   (loop_returns_on_quit ⟨false, [⟨2, []⟩], []⟩).2 ⟨2, []⟩ [] rfl rfl⟩

/-- C4: when every slot of the emitted event matches, `emit` routes the
slots in order: a slot whose owner token equals the emitting thread's is
invoked synchronously in-line at its position, while a slot with a
different owner has the matched callable and a copy of the arguments
bound into a pending call appended to the single shared queue — it is
not executed inside the emit call. -/
theorem emit_routes_by_owner (h : handler) (tid : ThreadId) (name : String)
    (args : List Arg) (slots : List Slot)
    (hfind : findEvent h._events name = some slots)
    (hall : ∀ s ∈ slots, ((s.2).callable_ptr (args.map Prod.fst)).isSome) :
    h.emit tid name args =
      ({ h with _pending_remote_calls := h._pending_remote_calls ++
          deferredCalls (slots.map fun s =>
            if s.1 = tid then EmitAction.sync ⟨s.2.fn, args⟩
            else EmitAction.deferred ⟨s.2.fn, args⟩) },
       slots.map (fun s =>
         if s.1 = tid then EmitAction.sync ⟨s.2.fn, args⟩
         else EmitAction.deferred ⟨s.2.fn, args⟩),
       true) := by
  simp [handler.emit, hfind, emitSlots_all_match tid args slots hall]

/-- Witness for C4: one same-thread slot invoked in-line, one
cross-thread slot pushed onto the queue. -/
theorem emit_routes_by_owner_witness :
    handler.emit
        ⟨false, [],
          [("key", [(1, handler_container.make [5] 10),
                    (2, handler_container.make [5] 11)])]⟩
        1 "key" [(5, 7)] =
      (⟨false, [⟨11, [(5, 7)]⟩],
          [("key", [(1, handler_container.make [5] 10),
                    (2, handler_container.make [5] 11)])]⟩,
       [EmitAction.sync ⟨10, [(5, 7)]⟩, EmitAction.deferred ⟨11, [(5, 7)]⟩],
       true) :=
  emit_routes_by_owner
    ⟨false, [],
      [("key", [(1, handler_container.make [5] 10),
                (2, handler_container.make [5] 11)])]⟩
    1 "key" [(5, 7)]
    [(1, handler_container.make [5] 10), (2, handler_container.make [5] 11)]
    rfl (by decide)

/-- C6: `on` appends the new slot at the end of the vector for `name`
(creating the vector when absent) without disturbing the previously
registered slots or any other name's vector, and a matching same-thread
emit invokes the slots of `name` synchronously in exactly that
registration order. -/
theorem on_appends_emit_ordered (h : handler) (tid : ThreadId)
    (name name' : String) (argTypes : List Ty) (fn : CallableId)
    (args : List Arg) (slots : List Slot) :
    findEvent (h.on tid name argTypes fn)._events name =
      some ((findEvent h._events name).getD [] ++
        [(tid, handler_container.make argTypes fn)]) ∧
    (name' ≠ name →
      findEvent (h.on tid name argTypes fn)._events name' =
        findEvent h._events name') ∧
    (h.on tid name argTypes fn)._pending_remote_calls =
      h._pending_remote_calls ∧
    (findEvent h._events name = some slots →
      (∀ s ∈ slots, s.1 = tid ∧
        ((s.2).callable_ptr (args.map Prod.fst)).isSome) →
      (h.emit tid name args).2.1 =
        slots.map fun s => EmitAction.sync ⟨s.2.fn, args⟩) := by
  refine ⟨findEvent_insertEvent_self _ _ _,
    fun hne => findEvent_insertEvent_ne _ _ _ _ hne, rfl, ?_⟩
  intro hfind hall
  have h1 : ∀ s ∈ slots, ((s.2).callable_ptr (args.map Prod.fst)).isSome :=
    fun s hs => (hall s hs).2
  simp only [handler.emit, hfind, emitSlots_all_match tid args slots h1]
  exact List.map_congr_left fun s hs => by simp [(hall s hs).1]

/-- Witness for C6: two handlers registered in turn under one name on
one thread fire in registration order. -/
theorem on_appends_emit_ordered_witness :
    findEvent
        (handler.on ⟨false, [], [("e", [(4, handler_container.make [] 20)])]⟩
          4 "e" [] 21)._events "e" =
      some ((findEvent [("e", [(4, handler_container.make [] 20)])] "e").getD []
        ++ [(4, handler_container.make [] 21)]) ∧
    (handler.emit
        ⟨false, [], [("e", [(4, handler_container.make [] 20),
                            (4, handler_container.make [] 21)])]⟩
        4 "e" []).2.1 =
      [EmitAction.sync ⟨20, []⟩, EmitAction.sync ⟨21, []⟩] :=
  ⟨(on_appends_emit_ordered
      ⟨false, [], [("e", [(4, handler_container.make [] 20)])]⟩
      4 "e" "e" [] 21 [] []).1,
   (on_appends_emit_ordered
      ⟨false, [], [("e", [(4, handler_container.make [] 20),
                          (4, handler_container.make [] 21)])]⟩
      4 "e" "e" [] 0 []
      [(4, handler_container.make [] 20), (4, handler_container.make [] 21)]).2.2.2
      rfl (by decide)⟩

/-- C3: when a slot of the emitted event fails the signature match,
`emit` fails with the mismatched-argument error (`mpp::runtime_error`):
the failing slot and every slot after it in registration order are
neither invoked nor enqueued, while the actions of the matching slots
before it — in-line invocations and queue pushes — have already happened
and are not rolled back. -/
theorem emit_fails_on_mismatch (h : handler) (tid : ThreadId)
    (name : String) (args : List Arg) (pre : List Slot) (bad : Slot)
    (post : List Slot)
    (hfind : findEvent h._events name = some (pre ++ bad :: post))
    (hpre : ∀ s ∈ pre, ((s.2).callable_ptr (args.map Prod.fst)).isSome)
    (hbad : (bad.2).callable_ptr (args.map Prod.fst) = none) :
    h.emit tid name args =
      ({ h with _pending_remote_calls := h._pending_remote_calls ++
          deferredCalls (emitSlots tid args pre).1 },
       (emitSlots tid args pre).1, false) := by
  simp [handler.emit, hfind,
    emitSlots_append_fail tid args pre bad post hpre hbad]

/-- Witness for C3: the spec's scenario — a handler expecting two ints
registered for "add", emitted with a single int — fails with no handler
run. -/
theorem emit_fails_on_mismatch_witness :
    handler.emit
        ⟨false, [], [("add", [(5, handler_container.make [1, 1] 7)])]⟩
        5 "add" [(1, 42)] =
      (⟨false, [], [("add", [(5, handler_container.make [1, 1] 7)])]⟩,
       [], false) :=
  emit_fails_on_mismatch
    ⟨false, [], [("add", [(5, handler_container.make [1, 1] 7)])]⟩
    5 "add" [(1, 42)] [] (5, handler_container.make [1, 1] 7) []
    rfl (by simp) rfl

/-- C10: an `emit` that fails the signature match leaves the queue equal
to the old queue followed by the pending calls this same emit already
pushed, in push order — the error removes and cancels nothing — and,
with the quit flag clear, a subsequent run of loop iterations on the
owning thread pops and invokes the whole queue front first. -/
theorem failed_emit_queue_survives (h : handler) (tid : ThreadId)
    (name : String) (args : List Arg)
    (hq : h._quited = false)
    (hfail : (h.emit tid name args).2.2 = false) :
    (h.emit tid name args).1._pending_remote_calls =
      h._pending_remote_calls ++ deferredCalls (h.emit tid name args).2.1 ∧
    (handler.loopInvokes
        ((h.emit tid name args).1._pending_remote_calls).length
        (h.emit tid name args).1).1 =
      (h.emit tid name args).1._pending_remote_calls := by
  obtain ⟨q, p, ev⟩ := h
  simp only at hq
  subst hq
  cases hfind : findEvent ev name with
  | none => simp [handler.emit, hfind] at hfail
  | some slots =>
    have hemit :
        ({ _quited := false, _pending_remote_calls := p,
           _events := ev } : handler).emit tid name args =
          (⟨false, p ++ deferredCalls (emitSlots tid args slots).1, ev⟩,
           (emitSlots tid args slots).1, (emitSlots tid args slots).2) := by
      simp [handler.emit, hfind]
    rw [hemit]
    refine ⟨rfl, ?_⟩
    show (handler.loopInvokes
        (p ++ deferredCalls (emitSlots tid args slots).1).length
        ⟨false, p ++ deferredCalls (emitSlots tid args slots).1, ev⟩).1 =
      p ++ deferredCalls (emitSlots tid args slots).1
    rw [loopInvokes_all]

/-- Witness for C10: an emit that pushes one cross-thread call and then
fails on a mismatching slot; the old queued call and the new push both
survive and both are invoked, FIFO, by later loop iterations. -/
theorem failed_emit_queue_survives_witness :
    (handler.emit
        ⟨false, [⟨9, []⟩],
          [("add", [(3, handler_container.make [1] 4),
                    (5, handler_container.make [1, 1] 7)])]⟩
        5 "add" [(1, 42)]).1._pending_remote_calls =
      [⟨9, []⟩] ++ deferredCalls
        (handler.emit
          ⟨false, [⟨9, []⟩],
            [("add", [(3, handler_container.make [1] 4),
                      (5, handler_container.make [1, 1] 7)])]⟩
          5 "add" [(1, 42)]).2.1 ∧
    (handler.loopInvokes 2
        (handler.emit
          ⟨false, [⟨9, []⟩],
            [("add", [(3, handler_container.make [1] 4),
                      (5, handler_container.make [1, 1] 7)])]⟩
          5 "add" [(1, 42)]).1).1 =
      [⟨9, []⟩, ⟨4, [(1, 42)]⟩] :=
  failed_emit_queue_survives
    ⟨false, [⟨9, []⟩],
      [("add", [(3, handler_container.make [1] 4),
                (5, handler_container.make [1, 1] 7)])]⟩
    5 "add" [(1, 42)] rfl rfl
